import Mathlib

/-!
Shallow embedding of the dataset-construction and per-sample preprocessing
pipeline of `improved_diffusion/datasets_image_superres.py`.

Conventions of the embedding:
* A decoded PIL image is a width, a height and a pixel function
  `x → y → value` (x is the column, y is the row); pixel values are the
  natural numbers produced by the decoder (0..255 for 8-bit images).
* The pixel values produced by PIL's resampling filters (`Image.BOX`,
  `Image.BICUBIC`) are external library behaviour; they are modelled by an
  uninterpreted `Kernel` parameter.  The *dimensions* of every resize are
  computed by the repository's own code and are embedded exactly.
* numpy arrays are dimension triples plus a data function; machine floats
  are modelled by exact rationals.
* Python exceptions are an explicit error type carried in `Except`.
-/

/-- Python exception classes that the pipeline can raise: `ValueError`
(with its message) and `IndexError`. -/
inductive Err where
  | valueError : String → Err
  | indexError : Err
deriving DecidableEq

/-- A decoded PIL image: `pixel x y` is the value at column `x`, row `y`. -/
structure PILImage where
  width : ℕ
  height : ℕ
  pixel : ℕ → ℕ → ℕ

/-- An uninterpreted resampling filter: given the source image and the target
width and height, produce the resampled pixel function.  `Image.BOX` and
`Image.BICUBIC` are two such kernels; none of the verified claims depends on
the values they produce, only on the dimensions, which PIL honours exactly. -/
def Kernel : Type := PILImage → ℕ → ℕ → (ℕ → ℕ → ℕ)

/-- `pil_image.resize((newW, newH), resample=k)`: PIL returns an image of
exactly the requested size, with pixel values given by the filter. -/
def pilResize (img : PILImage) (newW newH : ℕ) (k : Kernel) : PILImage :=
  ⟨newW, newH, k img newW newH⟩

/-- `pil_image.crop((left, upper, right, lower))`: the box has width
`right - left` and height `lower - upper`, and pixel `(x, y)` of the result
is pixel `(left + x, upper + y)` of the source. -/
def pilCrop (img : PILImage) (left upper right lower : ℕ) : PILImage :=
  ⟨right - left, lower - upper, fun x y => img.pixel (left + x) (upper + y)⟩

/-- A 3-dimensional numpy array: shape `(d0, d1, d2)` plus a data function. -/
structure Arr3 where
  d0 : ℕ
  d1 : ℕ
  d2 : ℕ
  data : ℕ → ℕ → ℕ → ℚ

/-- `np.array(pil_image)` for a `channels`-channel image has shape
`(height, width, channels)`; entry `(i, j, c)` comes from pixel
`(column j, row i)`.  The colour conversions `convert("RGB")` /
`convert("L")` keep the pixel grid's dimensions; per-channel values are
modelled by the single channel-agnostic intensity of the image. -/
def toArr (img : PILImage) (channels : ℕ) : Arr3 :=
  ⟨img.height, img.width, channels, fun i j _ => (img.pixel j i : ℚ)⟩

/-- The side-dictionary returned by `__getitem__`: the key `"y"` is present
iff `y` is `some`, and the key `"low_res"` is always present. -/
structure OutDict where
  y : Option ℤ
  low_res : Arr3

/-- `np.random.randint(lo, hi)` with the random draw `r` made explicit:
numpy raises `ValueError` when `hi <= lo`, otherwise the result is uniform
over `[lo, hi - 1]` (the upper bound is exclusive). -/
def npRandint (lo hi r : ℕ) : Except Err ℕ :=
  if hi ≤ lo then .error (.valueError "low >= high")
  else .ok (lo + r % (hi - lo))

/-- The by-hand power-of-two downsampling loop:
`while min(*pil_image.size) >= 2 * self.resolution: resize(size // 2, BOX)`.
For `res = 0` the source loop would never exit (PIL fails on a zero-size
resize first); the guard `0 < res` makes the embedding total and agrees with
the source for every positive resolution. -/
def halveLoop (res : ℕ) (k : Kernel) (img : PILImage) : PILImage :=
  if h : 0 < res ∧ 2 * res ≤ min img.width img.height then
    halveLoop res k (pilResize img (img.width / 2) (img.height / 2) k)
  else img
termination_by img.width
decreasing_by
  simp only [pilResize]
  omega

/-- `scale = self.resolution / min(*pil_image.size)` followed by
`tuple(round(x * scale) for x in pil_image.size)`, in exact arithmetic. -/
def scaledDims (res w h : ℕ) : ℕ × ℕ :=
  let m : ℕ := min w h
  let scale : ℚ := (res : ℚ) / (m : ℚ)
  ((round ((w : ℚ) * scale)).toNat, (round ((h : ℚ) * scale)).toNat)

/-- `arr.astype(np.float32) / 127.5 - 1` applied to one value. -/
def normalizeVal (v : ℚ) : ℚ := v / 127.5 - 1

/-- `arr.astype(np.float32) / 127.5 - 1` applied to the whole array. -/
def normalizeArr (a : Arr3) : Arr3 :=
  ⟨a.d0, a.d1, a.d2, fun i j c => normalizeVal (a.data i j c)⟩

/-- `np.transpose(arr, [2, 0, 1])`: `(H, W, C)` to `(C, H, W)`. -/
def transposeCHW (a : Arr3) : Arr3 :=
  ⟨a.d2, a.d0, a.d1, fun c i j => a.data i j c⟩

/-- `arr[crop_y : crop_y + res, crop_x : crop_x + res]` with numpy's
clamping slice semantics. -/
def centerSlice (a : Arr3) (cy cx res : ℕ) : Arr3 :=
  ⟨min res (a.d0 - cy), min res (a.d1 - cx), a.d2,
   fun i j c => a.data (cy + i) (cx + j) c⟩

/-- `F.interpolate(input, size, mode="area")` on a `(C, H, W)` array (the
unit batch axis added by `unsqueeze(0)` and removed by `squeeze(0)` is left
implicit): adaptive area averaging, where output cell `(i, j)` averages the
source pixels of rows `[i*H/oh, ceil((i+1)*H/oh))` and columns
`[j*W/ow, ceil((j+1)*W/ow))`. -/
def areaPool (a : Arr3) (oh ow : ℕ) : Arr3 :=
  ⟨a.d0, oh, ow, fun c i j =>
    let hs := i * a.d1 / oh
    let he := ((i + 1) * a.d1 + oh - 1) / oh
    let ws := j * a.d2 / ow
    let we := ((j + 1) * a.d2 + ow - 1) / ow
    (∑ h ∈ Finset.Ico hs he, ∑ w ∈ Finset.Ico ws we, a.data c h w) /
      (((he - hs) * (we - ws) : ℕ) : ℚ)⟩

/-- The crop path of `__getitem__` (lines 181-190): raise when either native
dimension is smaller than the resolution, otherwise draw the two random
offsets with `np.random.randint(0, dim - resolution)` and crop the
`resolution × resolution` window. -/
def cropStage (res : ℕ) (img : PILImage) (r1 r2 : ℕ) : Except Err PILImage :=
  (if img.width < res ∨ img.height < res then
    .error (.valueError "The data cannot be cropped to the desired resolution!")
  else .ok PUnit.unit) >>= fun _ =>
  npRandint 0 (img.width - res) r1 >>= fun left =>
  npRandint 0 (img.height - res) r2 >>= fun bottom =>
  .ok (pilCrop img left bottom (left + res) (bottom + res))

/-- The resize path of `__getitem__` (lines 192-206): the box-filter halving
loop followed by the single bicubic resize to the rounded scaled size. -/
def resizeStage (res : ℕ) (boxK bicK : Kernel) (img : PILImage) : PILImage :=
  let i2 := halveLoop res boxK img
  let dims := scaledDims res i2.width i2.height
  pilResize i2 dims.1 dims.2 bicK

/-- Lines 209-215: `convert("RGB")` for 3 channels, `convert("L")` plus a
trailing channel axis for 1 channel, otherwise raise. -/
def toChannels (channels : ℕ) (img : PILImage) : Except Err Arr3 :=
  if channels = 3 then .ok (toArr img 3)
  else if channels = 1 then .ok (toArr img 1)
  else .error (.valueError "We require either 1 or 3 channels.")

/-- Lines 217-218: `if arr.shape != (resolution, resolution, channels): raise`. -/
def checkShape (res channels : ℕ) (arr : Arr3) : Except Err PUnit :=
  if ¬(arr.d0 = res ∧ arr.d1 = res ∧ arr.d2 = channels) then
    .error (.valueError "The current image is not of the right size.")
  else .ok PUnit.unit

/-- The body of `ImageDatasetSuperres.__getitem__` after the image has been
loaded from its path, in source order: crop or resize, channel conversion,
shape check, center slice, value normalization, axis reorder, label lookup,
low-resolution companion.  `r1`, `r2` are the two random draws consumed by
the crop path (the injected pseudo-random source); `labelAct` performs the
`self.local_classes[idx]` lookup at the point in the control flow where the
source does it (after all the pixel work). -/
def transform (res lowRes channels : ℕ) (crop : Bool) (boxK bicK : Kernel)
    (img : PILImage) (r1 r2 : ℕ) (labelAct : Except Err (Option ℤ)) :
    Except Err (Arr3 × OutDict) :=
  (if crop then cropStage res img r1 r2
   else .ok (resizeStage res boxK bicK img)) >>= fun img =>
  toChannels channels img >>= fun arr =>
  checkShape res channels arr >>= fun _ =>
  let cy := (arr.d0 - res) / 2
  let cx := (arr.d1 - res) / 2
  let arr2 := transposeCHW (normalizeArr (centerSlice arr cy cx res))
  labelAct >>= fun label =>
  .ok (arr2, { y := label, low_res := areaPool arr2 lowRes lowRes })

/-- The dataset object: the images are stored already decoded (reading the
blob at a path is external I/O that deterministically yields the image
associated with that path). -/
structure ImageDatasetSuperres where
  resolution : ℕ
  low_resolution : ℕ
  num_channels : ℕ
  local_images : List PILImage
  local_classes : Option (List ℤ)
  crop : Bool

/-- Python list indexing `xs[i]`: non-negative indices address from the
front, negative indices address from the back (`xs[-1]` is the last
element), and anything outside `[-len, len)` raises `IndexError`. -/
def pyIndex {α : Type} (xs : List α) (i : ℤ) : Except Err α :=
  let j : ℤ := if i < 0 then (xs.length : ℤ) + i else i
  if j < 0 then .error .indexError
  else
    match xs.get? j.toNat with
    | some x => .ok x
    | none => .error .indexError

/-- `ImageDatasetSuperres.__getitem__(idx)`. -/
def getitem (ds : ImageDatasetSuperres) (boxK bicK : Kernel) (idx : ℤ)
    (r1 r2 : ℕ) : Except Err (Arr3 × OutDict) :=
  pyIndex ds.local_images idx >>= fun img =>
  transform ds.resolution ds.low_resolution ds.num_channels ds.crop
    boxK bicK img r1 r2
    (match ds.local_classes with
     | none => .ok none
     | some cs => pyIndex cs idx >>= fun v => .ok (some v))

/-- Split a list into consecutive chunks of size `bs` (the batching of a
`DataLoader`); `bs = 0` is rejected by the `DataLoader` constructor. -/
def chunks {α : Type} (bs : ℕ) (l : List α) : List (List α) :=
  if bs = 0 then []
  else if l.isEmpty then []
  else l.take bs :: chunks bs (l.drop bs)
termination_by l.length
decreasing_by
  rename_i h1 h2
  simp [List.isEmpty_iff] at h2
  have : 0 < l.length := List.length_pos.mpr h2
  simp [List.length_drop]
  omega

/-- The index batches of `DataLoader(dataset, batch_size, shuffle=False,
drop_last)`: indices `0 .. n-1` in order, grouped into batches, the final
short batch dropped when `drop_last` is set. -/
def detBatches (n bs : ℕ) (droplast : Bool) : List (List ℕ) :=
  let cs := chunks bs (List.range n)
  if droplast then cs.filter (fun c => c.length = bs) else cs

/-- One full traversal of the deterministic-mode loader: every batch is the
list of `__getitem__` results at its indices, in order.  `rng` is the
stream of the process-global `np.random` draws, indexed by dataset index
(in deterministic order the fetch counter is the index). -/
def runLoaderDet (ds : ImageDatasetSuperres) (bs : ℕ) (droplast : Bool)
    (boxK bicK : Kernel) (rng : ℕ → ℕ × ℕ) :
    List (List (Except Err (Arr3 × OutDict))) :=
  (detBatches ds.local_images.length bs droplast).map
    (fun batch => batch.map
      (fun (i : ℕ) => getitem ds boxK bicK (i : ℤ) (rng i).1 (rng i).2))

/-- A filesystem entry: a plain file or a directory with its children.
`bf.listdir` lists the names of the children of a directory. -/
inductive FSEntry where
  | file : String → FSEntry
  | dir : String → List FSEntry → FSEntry

/-- The name of an entry, as `bf.listdir` reports it. -/
def entryName : FSEntry → String
  | .file n => n
  | .dir n _ => n

/-- Python's `s.split(sep)` for a one-character separator, on the character
list: split at every occurrence, keeping empty pieces. -/
def splitOnChar (sep : Char) : List Char → List (List Char)
  | [] => [[]]
  | c :: rest =>
    let r := splitOnChar sep rest
    if c = sep then [] :: r
    else (c :: r.headI) :: r.tail

/-- Lexicographic comparison of character lists by code point: Python's
ordering on strings. -/
def lexLe : List Char → List Char → Bool
  | [], _ => true
  | _ :: _, [] => false
  | a :: as, b :: bs =>
    if a.toNat < b.toNat then true
    else if b.toNat < a.toNat then false
    else lexLe as bs

/-- Python's `s <= t` on strings. -/
def strLeP (s t : String) : Prop := lexLe s.toList t.toList = true

instance : DecidableRel strLeP := fun s t => by
  unfold strLeP
  infer_instance

/-- `entry.split(".")[-1]`: the text after the last dot (the whole name when
there is no dot). -/
def extAfterLastDot (s : String) : String :=
  ⟨(splitOnChar '.' s.toList).getLastD []⟩

/-- Python's `s.lower()`, restricted to the ASCII range (the accepted
extensions are all ASCII). -/
def lowerStr (s : String) : String :=
  ⟨s.toList.map Char.toLower⟩

/-- `"." in entry and entry.split(".")[-1].lower() in ["jpg","jpeg","png","gif"]`. -/
def isImageName (s : String) : Bool :=
  s.toList.contains '.' &&
    ["jpg", "jpeg", "png", "gif"].contains (lowerStr (extAfterLastDot s))

/-- `sorted(bf.listdir(data_dir))`: the entries of one directory in
lexicographic order of their names. -/
def sortEntries (es : List FSEntry) : List FSEntry :=
  es.insertionSort (fun a b => strLeP (entryName a) (entryName b))

/-- The loop body of `list_image_files_recursively` for a single directory
entry: an entry whose name has a dot and an accepted image extension is
appended as a file path (whether it is a file or a directory); otherwise a
directory is recursed into and a file is skipped. -/
def visitEntry (dirPath : String) : FSEntry → List String
  | .file n => if isImageName n then [dirPath ++ "/" ++ n] else []
  | .dir n children =>
    if isImageName n then [dirPath ++ "/" ++ n]
    else
      ((sortEntries children).attach.map
        (fun e => visitEntry (dirPath ++ "/" ++ n) e.1)).flatten
termination_by e => sizeOf e
decreasing_by
  rename_i children _hni
  have hmem : e.1 ∈ children :=
    (List.Perm.mem_iff (List.perm_insertionSort _ children)).mp e.2
  have := List.sizeOf_lt_of_mem hmem
  simp only [FSEntry.dir.sizeOf_spec]
  omega

/-- `list_image_files_recursively(data_dir)` over the modelled tree of
`data_dir`'s children. -/
def list_image_files_recursively (dirPath : String) (entries : List FSEntry) :
    List String :=
  ((sortEntries entries).map (visitEntry dirPath)).flatten

/-- `bf.basename(path)`: the text after the last `/`. -/
def basename (p : String) : String :=
  ⟨(splitOnChar '/' p.toList).getLastD []⟩

/-- `bf.basename(path).split("_")[0]`: the class name of a path. -/
def class_name (p : String) : String :=
  ⟨(splitOnChar '_' (basename p).toList).headI⟩

/-- `sorted(set(class_names))`: the distinct class names of the paths, in
Python's lexicographic order. -/
def sorted_class_names (paths : List String) : List String :=
  ((paths.map class_name).dedup).insertionSort strLeP

/-- `classes = [sorted_classes[x] for x in class_names]`: the 0-based rank
of each path's class name in the sorted distinct-name list, aligned 1:1
with the paths. -/
def class_labels (paths : List String) : List ℕ :=
  (paths.map class_name).map (fun x => (sorted_class_names paths).indexOf x)

/-- The class-conditioning block of `load_data_superres` (lines 86-94):
build the labels, then fail when `num_class != len(sorted_classes)`.
`num_class` is `none` when the caller leaves it unset (`None`), and in
Python `None != k` is true for every integer `k`. -/
def load_data_classes (paths : List String) (class_cond : Bool)
    (num_class : Option ℕ) : Except Err (Option (List ℕ)) :=
  if class_cond then
    if num_class = some (sorted_class_names paths).length then
      .ok (some (class_labels paths))
    else
      .error (.valueError "Difference between the number of classes when reading the data and the input number of classes.")
  else .ok none

/-- Observer: did the call succeed? -/
def isOkE {α : Type} : Except Err α → Bool
  | .ok _ => true
  | .error _ => false

/-- Observer: the raised exception, when the call failed. -/
def errOf {α : Type} : Except Err α → Option Err
  | .ok _ => none
  | .error e => some e

/-- Observer: the shape of the returned high-resolution sample. -/
def dimsOfSample : Except Err (Arr3 × OutDict) → Option (ℕ × ℕ × ℕ)
  | .ok (a, _) => some (a.d0, a.d1, a.d2)
  | .error _ => none

/-- Observer: the shape of the `"low_res"` entry of the side-dict. -/
def dimsOfLowRes : Except Err (Arr3 × OutDict) → Option (ℕ × ℕ × ℕ)
  | .ok (_, d) => some (d.low_res.d0, d.low_res.d1, d.low_res.d2)
  | .error _ => none

/-- Observer: whether the `"y"` key is present in the side-dict. -/
def hasYKey : Except Err (Arr3 × OutDict) → Option Bool
  | .ok (_, d) => some d.y.isSome
  | .error _ => none

/-- Observer: the value at coordinate `(0,0,0)` of the first sample of the
first batch of a loader traversal. -/
def firstVal (bs : List (List (Except Err (Arr3 × OutDict)))) : Option ℚ :=
  match bs with
  | ((.ok (a, _)) :: _) :: _ => some (a.data 0 0 0)
  | _ => none

/-- The paths that the amended discovery contract accepts: an entry of the
current directory whose name matches the image pattern is listed (file or
directory alike), and a directory whose name does not match the pattern is
descended into. -/
inductive Accepted : String → List FSEntry → String → Prop where
  | here : ∀ {d : String} {es : List FSEntry} {e : FSEntry},
      e ∈ es → isImageName (entryName e) = true →
      Accepted d es (d ++ "/" ++ entryName e)
  | there : ∀ {d : String} {es : List FSEntry} {n : String}
      {ch : List FSEntry} {p : String},
      FSEntry.dir n ch ∈ es → isImageName n = false →
      Accepted (d ++ "/" ++ n) ch p → Accepted d es p

/-! ### Helper lemmas about the embedding -/

theorem error_bind {α β : Type} (e : Err) (f : α → Except Err β) :
    ((Except.error e : Except Err α) >>= f) = .error e := rfl

theorem ok_bind {α β : Type} (a : α) (f : α → Except Err β) :
    ((Except.ok a : Except Err α) >>= f) = f a := rfl

theorem errOf_eq_some {α : Type} (x : Except Err α) (e : Err) :
    errOf x = some e ↔ x = .error e := by
  cases x <;> simp [errOf]

theorem isOk_bind {α β : Type} (x : Except Err α) (f : α → Except Err β)
    (h : (x >>= f).isOk = true) : ∃ a, x = .ok a ∧ (f a).isOk = true := by
  cases x with
  | ok a => exact ⟨a, rfl, h⟩
  | error e => simp [Bind.bind, Except.bind, Except.isOk, Except.toBool] at h

theorem pyIndex_error_iff {α : Type} (xs : List α) (i : ℤ) :
    pyIndex xs i = .error .indexError ↔
      (i < -(xs.length : ℤ) ∨ (xs.length : ℤ) ≤ i) := by
  unfold pyIndex
  dsimp only
  split_ifs with h1 h2
  · exact iff_of_true rfl (by omega)
  · cases hget : xs.get? ((xs.length : ℤ) + i).toNat with
    | some a =>
      obtain ⟨hlt, -⟩ := List.get?_eq_some.mp hget
      exact iff_of_false (fun h => Except.noConfusion h) (by omega)
    | none =>
      have hle := List.get?_eq_none.mp hget
      exact iff_of_true rfl (by omega)
  · cases hget : xs.get? i.toNat with
    | some a =>
      obtain ⟨hlt, -⟩ := List.get?_eq_some.mp hget
      exact iff_of_false (fun h => Except.noConfusion h) (by omega)
    | none =>
      have hle := List.get?_eq_none.mp hget
      exact iff_of_true rfl (by omega)

theorem pyIndex_ok_or_indexError {α : Type} (xs : List α) (i : ℤ) :
    (∃ a, pyIndex xs i = .ok a) ∨ pyIndex xs i = .error .indexError := by
  unfold pyIndex
  dsimp only
  split_ifs
  · right; rfl
  · cases hget : xs.get? ((xs.length : ℤ) + i).toNat with
    | some a => left; exact ⟨a, rfl⟩
    | none => right; rfl
  · cases hget : xs.get? i.toNat with
    | some a => left; exact ⟨a, rfl⟩
    | none => right; rfl

theorem cropStage_no_indexError (res : ℕ) (img : PILImage) (r1 r2 : ℕ) :
    cropStage res img r1 r2 ≠ .error .indexError := by
  unfold cropStage npRandint
  split_ifs <;> simp [error_bind, ok_bind]

theorem toChannels_no_indexError (ch : ℕ) (img : PILImage) :
    toChannels ch img ≠ .error .indexError := by
  unfold toChannels
  split_ifs <;> simp

theorem checkShape_no_indexError (res ch : ℕ) (arr : Arr3) :
    checkShape res ch arr ≠ .error .indexError := by
  unfold checkShape
  split_ifs <;> simp

theorem transform_indexError_from_label (res lr ch : ℕ) (crop : Bool)
    (bk bik : Kernel) (img : PILImage) (r1 r2 : ℕ) (lab : Except Err (Option ℤ))
    (h : transform res lr ch crop bk bik img r1 r2 lab = .error .indexError) :
    lab = .error .indexError := by
  unfold transform at h
  cases hc1 : (if crop = true then cropStage res img r1 r2
      else .ok (resizeStage res bk bik img)) with
  | error e =>
    rw [hc1, error_bind] at h
    injection h with h'
    subst h'
    exfalso
    cases hc : crop with
    | true => rw [hc, if_pos rfl] at hc1; exact cropStage_no_indexError res img r1 r2 hc1
    | false => rw [hc] at hc1; simp at hc1
  | ok img2 =>
    rw [hc1, ok_bind] at h
    cases hc2 : toChannels ch img2 with
    | error e =>
      rw [hc2, error_bind] at h
      injection h with h'
      subst h'
      exact absurd hc2 (toChannels_no_indexError ch img2)
    | ok arr =>
      rw [hc2, ok_bind] at h
      cases hc3 : checkShape res ch arr with
      | error e =>
        rw [hc3, error_bind] at h
        injection h with h'
        subst h'
        exact absurd hc3 (checkShape_no_indexError res ch arr)
      | ok u =>
        rw [hc3, ok_bind] at h
        cases hc4 : lab with
        | error e =>
          rw [hc4, error_bind] at h
          injection h with h'
          subst h'
          rfl
        | ok label =>
          rw [hc4, ok_bind] at h
          exact Except.noConfusion h

theorem round_scale_exact (res m : ℕ) (hm : 0 < m) :
    (round ((m : ℚ) * ((res : ℚ) / (m : ℚ)))).toNat = res := by
  have hm0 : ((m : ℚ)) ≠ 0 := by positivity
  rw [mul_div_cancel₀ _ hm0, round_natCast]
  exact Int.toNat_natCast res

theorem round_scale_ge (res m n : ℕ) (hm : 0 < m) (hmn : m ≤ n) :
    res ≤ (round ((n : ℚ) * ((res : ℚ) / (m : ℚ)))).toNat := by
  have hm0 : (0 : ℚ) < (m : ℚ) := by exact_mod_cast hm
  have hx : (res : ℚ) ≤ (n : ℚ) * ((res : ℚ) / (m : ℚ)) := by
    have hnn : (m : ℚ) ≤ (n : ℚ) := by exact_mod_cast hmn
    calc (res : ℚ) = (m : ℚ) * ((res : ℚ) / (m : ℚ)) := by
          rw [mul_div_cancel₀ _ (ne_of_gt hm0)]
      _ ≤ (n : ℚ) * ((res : ℚ) / (m : ℚ)) := by
          apply mul_le_mul_of_nonneg_right hnn
          positivity
  have hr : (res : ℤ) ≤ round ((n : ℚ) * ((res : ℚ) / (m : ℚ))) := by
    rw [round_eq]
    apply Int.le_floor.mpr
    push_cast
    linarith
  have := Int.toNat_le_toNat hr
  simpa using this

theorem lexLe_total : ∀ as bs : List Char, lexLe as bs = true ∨ lexLe bs as = true
  | [], _ => Or.inl rfl
  | _ :: _, [] => Or.inr rfl
  | a :: as, b :: bs => by
    rcases Nat.lt_trichotomy a.toNat b.toNat with h | h | h
    · left; simp [lexLe, h]
    · have hab : a = b := Char.ext (UInt32.ext h)
      subst hab
      rcases lexLe_total as bs with h2 | h2
      · left; simp [lexLe, h2]
      · right; simp [lexLe, h2]
    · right; simp [lexLe, h]

theorem lexLe_antisymm : ∀ as bs : List Char,
    lexLe as bs = true → lexLe bs as = true → as = bs
  | [], [], _, _ => rfl
  | [], _ :: _, _, h2 => by simp [lexLe] at h2
  | _ :: _, [], h1, _ => by simp [lexLe] at h1
  | a :: as, b :: bs, h1, h2 => by
    rcases Nat.lt_trichotomy a.toNat b.toNat with h | h | h
    · simp [lexLe, h, Nat.lt_asymm h] at h2
    · have hab : a = b := Char.ext (UInt32.ext h)
      subst hab
      simp only [lexLe, lt_irrefl, if_false] at h1 h2
      rw [lexLe_antisymm as bs h1 h2]
    · simp [lexLe, h, Nat.lt_asymm h] at h1

theorem lexLe_trans : ∀ as bs cs : List Char,
    lexLe as bs = true → lexLe bs cs = true → lexLe as cs = true
  | [], _, _, _, _ => rfl
  | _ :: _, [], _, h1, _ => by simp [lexLe] at h1
  | _ :: _, _ :: _, [], _, h2 => by simp [lexLe] at h2
  | a :: as, b :: bs, c :: cs, h1, h2 => by
    simp only [lexLe] at h1 h2 ⊢
    rcases Nat.lt_trichotomy a.toNat b.toNat with hab | hab | hab
    · rcases Nat.lt_trichotomy b.toNat c.toNat with hbc | hbc | hbc
      · rw [if_pos (Nat.lt_trans hab hbc)]
      · rw [if_pos (show a.toNat < c.toNat by omega)]
      · rw [if_neg (show ¬ b.toNat < c.toNat by omega),
            if_pos (show c.toNat < b.toNat by omega)] at h2
        exact absurd h2 (by simp)
    · rcases Nat.lt_trichotomy b.toNat c.toNat with hbc | hbc | hbc
      · rw [if_pos (show a.toNat < c.toNat by omega)]
      · rw [if_neg (show ¬ a.toNat < c.toNat by omega),
            if_neg (show ¬ c.toNat < a.toNat by omega)]
        rw [if_neg (show ¬ a.toNat < b.toNat by omega),
            if_neg (show ¬ b.toNat < a.toNat by omega)] at h1
        rw [if_neg (show ¬ b.toNat < c.toNat by omega),
            if_neg (show ¬ c.toNat < b.toNat by omega)] at h2
        exact lexLe_trans as bs cs h1 h2
      · rw [if_neg (show ¬ b.toNat < c.toNat by omega),
            if_pos (show c.toNat < b.toNat by omega)] at h2
        exact absurd h2 (by simp)
    · rw [if_neg (show ¬ a.toNat < b.toNat by omega),
          if_pos (show b.toNat < a.toNat by omega)] at h1
      exact absurd h1 (by simp)

instance : IsTotal String strLeP :=
  ⟨fun s t => lexLe_total s.toList t.toList⟩

instance : IsTrans String strLeP :=
  ⟨fun _ _ _ h1 h2 => lexLe_trans _ _ _ h1 h2⟩

instance : IsAntisymm String strLeP :=
  ⟨fun _ _ h1 h2 => String.toList_inj.mp (lexLe_antisymm _ _ h1 h2)⟩

theorem accepted_iff (d : String) (es : List FSEntry) (p : String) :
    Accepted d es p ↔
      ∃ e ∈ es, ((isImageName (entryName e) = true ∧ p = d ++ "/" ++ entryName e) ∨
        (∃ n ch, e = .dir n ch ∧ isImageName n = false ∧
          Accepted (d ++ "/" ++ n) ch p)) := by
  constructor
  · intro h
    cases h with
    | here hmem him => exact ⟨_, hmem, Or.inl ⟨him, rfl⟩⟩
    | there hmem hni hacc => exact ⟨_, hmem, Or.inr ⟨_, _, rfl, hni, hacc⟩⟩
  · rintro ⟨e, hmem, (⟨him, rfl⟩ | ⟨n, ch, rfl, hni, hacc⟩)⟩
    · exact Accepted.here hmem him
    · exact Accepted.there hmem hni hacc

theorem visitEntry_mem (d : String) (e : FSEntry) :
    ∀ p, p ∈ visitEntry d e ↔
      ((isImageName (entryName e) = true ∧ p = d ++ "/" ++ entryName e) ∨
       (∃ n ch, e = .dir n ch ∧ isImageName n = false ∧
         Accepted (d ++ "/" ++ n) ch p)) := by
  induction d, e using visitEntry.induct with
  | case1 dirPath n him =>
    intro p
    rw [visitEntry, if_pos him]
    simp [entryName, him]
  | case2 dirPath n him =>
    intro p
    have hni : isImageName n = false := by simpa using him
    rw [visitEntry, if_neg him]
    simp [entryName, hni]
  | case3 dirPath n ch him =>
    intro p
    rw [visitEntry, if_pos him]
    simp [entryName, him]
  | case4 dirPath n ch him ih =>
    intro p
    rw [visitEntry, if_neg him]
    have hni : isImageName n = false := by simpa using him
    simp only [entryName, hni, Bool.false_eq_true, false_and, false_or]
    rw [List.mem_flatten]
    constructor
    · rintro ⟨l, hl, hpl⟩
      rw [List.mem_map] at hl
      obtain ⟨⟨e, he⟩, -, rfl⟩ := hl
      have hmem : e ∈ ch := (List.perm_insertionSort _ ch).mem_iff.mp he
      have hchar := (ih ⟨e, he⟩ p).mp hpl
      refine ⟨n, ch, rfl, hni, ?_⟩
      rw [accepted_iff]
      exact ⟨e, hmem, hchar⟩
    · rintro ⟨n', ch', heq, -, hacc⟩
      injection heq with h1 h2
      subst h1
      subst h2
      rw [accepted_iff] at hacc
      obtain ⟨e, hmem, hchar⟩ := hacc
      have he : e ∈ sortEntries ch := (List.perm_insertionSort _ ch).mem_iff.mpr hmem
      refine ⟨visitEntry (dirPath ++ "/" ++ n) e, ?_, ?_⟩
      · rw [List.mem_map]
        exact ⟨⟨e, he⟩, List.mem_attach _ _, rfl⟩
      · exact (ih ⟨e, he⟩ p).mpr hchar

theorem transform_no_crop_ignores_rng (res lr ch : ℕ) (bk bik : Kernel)
    (img : PILImage) (r1 r2 r3 r4 : ℕ) (lab : Except Err (Option ℤ)) :
    transform res lr ch false bk bik img r1 r2 lab =
      transform res lr ch false bk bik img r3 r4 lab := rfl

theorem getitem_no_crop_ignores_rng (ds : ImageDatasetSuperres) (bk bik : Kernel)
    (idx : ℤ) (r1 r2 r3 r4 : ℕ) (hc : ds.crop = false) :
    getitem ds bk bik idx r1 r2 = getitem ds bk bik idx r3 r4 := by
  unfold getitem
  cases hpi : pyIndex ds.local_images idx with
  | error e => rfl
  | ok img =>
    rw [ok_bind, ok_bind, hc]
    exact transform_no_crop_ignores_rng _ _ _ _ _ _ _ _ _ _ _

theorem halveLoop_pos (res : ℕ) (k : Kernel) :
    ∀ img : PILImage, 0 < img.width → 0 < img.height →
      0 < (halveLoop res k img).width ∧ 0 < (halveLoop res k img).height := by
  intro img
  induction img using halveLoop.induct res k with
  | case1 img hcond ih =>
    intro hw hh
    rw [halveLoop, dif_pos hcond]
    exact ih (by simp [pilResize]; omega) (by simp [pilResize]; omega)
  | case2 img hcond =>
    intro hw hh
    rw [halveLoop, dif_neg hcond]
    exact ⟨hw, hh⟩

theorem scaled_min_side (res w h : ℕ) (hw : 0 < w) (hh : 0 < h) :
    min (scaledDims res w h).1 (scaledDims res w h).2 = res := by
  unfold scaledDims
  rcases le_total w h with hle | hle
  · rw [min_eq_left hle]
    dsimp only
    rw [round_scale_exact res w hw]
    exact min_eq_left (round_scale_ge res w h hw hle)
  · rw [min_eq_right hle]
    dsimp only
    rw [round_scale_exact res h hh]
    exact min_eq_right (round_scale_ge res h w hh hle)

/-! ### Concrete inputs used by counterexamples and witnesses -/

/-- A resampling filter producing all-zero pixels (the claims settled on
concrete inputs do not depend on resampled pixel values). -/
def zeroKernel : Kernel := fun _ _ _ => fun _ _ => 0

/-- A 1-by-1 image with constant pixel value 5. -/
def oneByOne : PILImage := ⟨1, 1, fun _ _ => 5⟩

/-- A length-1 dataset, resolution 1, 3 channels, no labels, crop off. -/
def ds0 : ImageDatasetSuperres := ⟨1, 1, 3, [oneByOne], none, false⟩

/-- A length-1 dataset with a class-label list of matching length. -/
def dsY : ImageDatasetSuperres := ⟨1, 1, 3, [oneByOne], some [7], false⟩

/-- A length-1 dataset over a 3-by-3 image whose pixel value equals its
column index, with random cropping enabled at resolution 1. -/
def dsCrop : ImageDatasetSuperres := ⟨1, 1, 3, [⟨3, 3, fun x _ => x⟩], none, true⟩

/-- A random stream whose first crop draw selects offset 0. -/
def rngA : ℕ → ℕ × ℕ := fun _ => (0, 0)

/-- A random stream whose first crop draw selects offset 1. -/
def rngB : ℕ → ℕ × ℕ := fun _ => (1, 0)

/-! ### C1: resize-path shape behaviour -/

/-- C1, counterexample: a 128-wide, 64-high source at resolution 64 takes
the resize path unchanged (the halving loop does not fire and the scale
factor is 1), so the pixel grid is `(64, 128, 3)` and `__getitem__` raises
the shape `ValueError` — the larger side is *not* center-cropped before the
check, contradicting the claim that such an access still succeeds. -/
theorem resize_nonsquare_fails_shape_check :
    errOf (transform 64 32 3 false zeroKernel zeroKernel
      ⟨128, 64, fun _ _ => 0⟩ 0 0 (.ok none)) =
      some (.valueError "The current image is not of the right size.") := by
  rw [transform, resizeStage, halveLoop]
  norm_num [scaledDims, pilResize, toArr, toChannels, checkShape, ok_bind,
    error_bind]
  decide

/-- C1, amended: the shape check runs immediately after channel conversion
and BEFORE the center-crop step (which is therefore a no-op), so a resize
whose larger side exceeds `resolution` fails the shape check with
`ValidationError`; every resize-path access that does succeed returns a
pixel grid of shape `(resolution, resolution, channels)`, delivered as a
`(channels, resolution, resolution)` sample after the axis reorder. -/
theorem resize_path_success_shape (res lr ch : ℕ) (bk bik : Kernel)
    (img : PILImage) (r1 r2 : ℕ) (lab : Except Err (Option ℤ))
    (hok : (transform res lr ch false bk bik img r1 r2 lab).isOk = true) :
    dimsOfSample (transform res lr ch false bk bik img r1 r2 lab) =
      some (ch, res, res) := by
  unfold transform at hok ⊢
  rw [if_neg (by decide : ¬ ((false : Bool) = true)), ok_bind] at hok ⊢
  obtain ⟨arr, harr, h2⟩ := isOk_bind _ _ hok
  rw [harr, ok_bind]
  obtain ⟨u, hu, h3⟩ := isOk_bind _ _ h2
  have hshape : arr.d0 = res ∧ arr.d1 = res ∧ arr.d2 = ch := by
    by_contra hc
    rw [checkShape, if_pos hc] at hu
    exact Except.noConfusion hu
  rw [hu, ok_bind]
  obtain ⟨label, hlab, h4⟩ := isOk_bind _ _ h3
  rw [hlab, ok_bind]
  simp [dimsOfSample, transposeCHW, normalizeArr, centerSlice,
    hshape.1, hshape.2.1, hshape.2.2]

/-- C1, witness: a 1-by-1 source at resolution 1 succeeds on the resize
path and the returned sample has shape `(3, 1, 1)`. -/
theorem resize_path_success_shape_witness :
    (transform 1 1 3 false zeroKernel zeroKernel oneByOne 0 0
        (.ok none)).isOk = true ∧
      dimsOfSample (transform 1 1 3 false zeroKernel zeroKernel oneByOne 0 0
        (.ok none)) = some (3, 1, 1) := by
  have hok : (transform 1 1 3 false zeroKernel zeroKernel oneByOne 0 0
      (.ok none)).isOk = true := by
    rw [transform, resizeStage, halveLoop]
    norm_num [oneByOne, scaledDims, pilResize, toArr, toChannels, checkShape,
      ok_bind, error_bind]
    rfl
  exact ⟨hok, resize_path_success_shape 1 1 3 zeroKernel zeroKernel oneByOne
    0 0 (.ok none) hok⟩

/-! ### C2: crop-path failure condition -/

/-- C2: the crop path of `__getitem__` on a source whose width and height
EQUAL the resolution (64 = 64, so neither dimension is *smaller* and the
explicit guard passes) nevertheless fails, because
`np.random.randint(0, width - resolution)` is called with an exclusive
upper bound of 0 and raises numpy's `ValueError` — so "fails iff a
dimension is smaller than resolution" does not hold, and the maximal
offset `width - resolution` is never drawn on larger images. -/
theorem crop_exact_size_raises_randint_error :
    errOf (transform 64 32 3 true zeroKernel zeroKernel
      ⟨64, 64, fun _ _ => 0⟩ 0 0 (.ok none)) =
      some (.valueError "low >= high") := by
  rw [transform, cropStage]
  norm_num [npRandint, ok_bind, error_bind]
  decide

/-! ### C3: reproducibility of deterministic-mode traversals -/

/-- C3, counterexample: over the same constructed dataset (crop enabled),
two deterministic-mode loader traversals that consume different
process-global random draws yield different batch contents: the first
sample value is `-1` when the crop offset is 0 and `2/255 - 1` when it
is 1.  Batch contents are therefore not a pure function of the dataset
construction when `crop_enabled` is true. -/
theorem det_loader_crop_runs_differ :
    firstVal (runLoaderDet dsCrop 1 false zeroKernel zeroKernel rngA) ≠
      firstVal (runLoaderDet dsCrop 1 false zeroKernel zeroKernel rngB) := by
  rw [runLoaderDet, runLoaderDet]
  rw [show detBatches dsCrop.local_images.length 1 false = [[0]] from by
    unfold detBatches
    rw [chunks]
    norm_num [dsCrop, List.range_succ]
    rw [chunks]
    simp]
  norm_num [dsCrop, rngA, rngB, getitem, pyIndex, ok_bind]
  rw [transform, transform, cropStage, cropStage]
  norm_num [npRandint, pilCrop, toArr, toChannels, checkShape, centerSlice,
    normalizeArr, normalizeVal, transposeCHW, firstVal, ok_bind, error_bind]

/-- C3, amended: a deterministic-mode loader traversal always visits the
indices `0 .. n-1` in order in fixed batches, and when `crop_enabled` is
FALSE the batch contents are a pure function of the dataset construction:
two traversals are identical whatever random draws the process makes. -/
theorem det_loader_no_crop_reproducible (ds : ImageDatasetSuperres) (bs : ℕ)
    (droplast : Bool) (bk bik : Kernel) (rng rng2 : ℕ → ℕ × ℕ)
    (hc : ds.crop = false) :
    runLoaderDet ds bs droplast bk bik rng =
      runLoaderDet ds bs droplast bk bik rng2 := by
  unfold runLoaderDet
  apply List.map_congr_left
  intro batch _
  apply List.map_congr_left
  intro i _
  exact getitem_no_crop_ignores_rng ds bk bik i (rng i).1 (rng i).2
    (rng2 i).1 (rng2 i).2 hc

/-- C3, witness: on the concrete no-crop dataset the two distinct random
streams produce identical traversals. -/
theorem det_loader_no_crop_reproducible_witness :
    ds0.crop = false ∧
      runLoaderDet ds0 1 false zeroKernel zeroKernel rngA =
        runLoaderDet ds0 1 false zeroKernel zeroKernel rngB :=
  ⟨rfl, det_loader_no_crop_reproducible ds0 1 false zeroKernel zeroKernel
    rngA rngB rfl⟩

/-! ### C4: class labelling -/

/-- C4: class labelling takes the substring of each base filename before
the first underscore, the mapping from class name to label is the 0-based
rank in the lexicographically sorted list of the distinct observed names
(sorted, duplicate-free, containing exactly the observed names), labels
are aligned 1:1 with the input paths, the name-to-label assignment is
independent of the order of the input paths, and `load_data_superres`
fails with the class-count `ValueError` iff the declared count differs
from the number of distinct names. -/
theorem class_labeling_spec (paths paths' : List String)
    (num_class : Option ℕ) (hperm : paths.Perm paths') :
    sorted_class_names paths = sorted_class_names paths' ∧
    (sorted_class_names paths).Sorted strLeP ∧
    (sorted_class_names paths).Nodup ∧
    (∀ x, x ∈ sorted_class_names paths ↔ x ∈ paths.map class_name) ∧
    class_labels paths =
      paths.map (fun p => (sorted_class_names paths).indexOf (class_name p)) ∧
    (errOf (load_data_classes paths true num_class) =
        some (.valueError "Difference between the number of classes when reading the data and the input number of classes.") ↔
      num_class ≠ some (sorted_class_names paths).length) := by
  refine ⟨?_, ?_, ?_, ?_, ?_, ?_⟩
  · unfold sorted_class_names
    exact List.eq_of_perm_of_sorted
      (((List.perm_insertionSort strLeP _).trans
          ((hperm.map class_name).dedup)).trans
        (List.perm_insertionSort strLeP _).symm)
      (List.sorted_insertionSort strLeP _) (List.sorted_insertionSort strLeP _)
  · exact List.sorted_insertionSort _ _
  · exact ((List.perm_insertionSort _ _).nodup_iff).mpr (List.nodup_dedup _)
  · intro x
    unfold sorted_class_names
    rw [(List.perm_insertionSort _ _).mem_iff, List.mem_dedup]
  · unfold class_labels
    rw [List.map_map]
    rfl
  · unfold load_data_classes
    rw [if_pos rfl]
    split_ifs with h
    · simp [errOf, h]
    · simp [errOf, h]

/-- C4, witness: the spec's own example — `cat_1.png`, `dog_1.png`,
`cat_2.png` under a root, in two different orders, produce the same sorted
class list `["cat", "dog"]`, labels `[0, 1, 0]`, and the declared count 2
is accepted. -/
theorem class_labeling_spec_witness :
    ["root/cat_1.png", "root/dog_1.png", "root/cat_2.png"].Perm
        ["root/cat_2.png", "root/cat_1.png", "root/dog_1.png"] ∧
      sorted_class_names ["root/cat_1.png", "root/dog_1.png", "root/cat_2.png"] =
        sorted_class_names ["root/cat_2.png", "root/cat_1.png", "root/dog_1.png"] ∧
      sorted_class_names ["root/cat_1.png", "root/dog_1.png", "root/cat_2.png"] =
        ["cat", "dog"] ∧
      class_labels ["root/cat_1.png", "root/dog_1.png", "root/cat_2.png"] =
        [0, 1, 0] ∧
      errOf (load_data_classes
        ["root/cat_1.png", "root/dog_1.png", "root/cat_2.png"] true
        (some 2)) = none :=
  ⟨by decide,
   (class_labeling_spec ["root/cat_1.png", "root/dog_1.png", "root/cat_2.png"]
     ["root/cat_2.png", "root/cat_1.png", "root/dog_1.png"] (some 2)
     (by decide)).1,
   by decide, by decide, by decide⟩

/-! ### C5: recursive path discovery -/

/-- C5, counterexample: a DIRECTORY whose name ends in an accepted image
extension (`a.png`) is appended to the results as if it were a file and is
NOT recursed into: the image file `b.jpg` inside it is never discovered.
This contradicts the claim that every subdirectory is recursed into
unconditionally. -/
theorem image_named_dir_listed_not_recursed :
    ("root/a.png/b.jpg" ∉
        list_image_files_recursively "root" [.dir "a.png" [.file "b.jpg"]]) ∧
      ("root/a.png" ∈
        list_image_files_recursively "root" [.dir "a.png" [.file "b.jpg"]]) := by
  rw [list_image_files_recursively,
    show sortEntries [FSEntry.dir "a.png" [FSEntry.file "b.jpg"]] =
      [FSEntry.dir "a.png" [FSEntry.file "b.jpg"]] from rfl,
    List.map_cons, visitEntry, if_pos (by decide : isImageName "a.png" = true)]
  exact ⟨by decide, by decide⟩

/-- C5, amended: a path is produced by discovery iff it is reached by a
chain of directories whose names do NOT match the image pattern, ending at
an entry (file or directory alike) whose name contains a dot and whose
lowercased extension after the last dot is one of jpg/jpeg/png/gif;
a directory whose name matches the pattern is listed as if it were an
image file and is not recursed into (entries at each level are still
visited in sorted name order). -/
theorem discovery_mem_iff (d : String) (es : List FSEntry) (p : String) :
    p ∈ list_image_files_recursively d es ↔ Accepted d es p := by
  rw [list_image_files_recursively, List.mem_flatten, accepted_iff]
  constructor
  · rintro ⟨l, hl, hpl⟩
    rw [List.mem_map] at hl
    obtain ⟨e, he, rfl⟩ := hl
    exact ⟨e, (List.perm_insertionSort _ es).mem_iff.mp he,
      (visitEntry_mem d e p).mp hpl⟩
  · rintro ⟨e, hmem, hchar⟩
    refine ⟨visitEntry d e, ?_, (visitEntry_mem d e p).mpr hchar⟩
    rw [List.mem_map]
    exact ⟨e, (List.perm_insertionSort _ es).mem_iff.mpr hmem, rfl⟩

/-! ### C6: indexed access bounds -/

/-- C6, counterexample: on a length-1 dataset, `at(-1)` does NOT raise
`IndexError` — Python list indexing wraps negative indices, so the access
succeeds although `-1` is outside `[0, n)`. -/
theorem negative_index_access_succeeds :
    (getitem ds0 zeroKernel zeroKernel (-1) 0 0).isOk = true := by
  rw [getitem]
  rw [show pyIndex ds0.local_images (-1) = .ok oneByOne by
    rw [pyIndex]
    norm_num [ds0]]
  rw [ok_bind]
  show (transform 1 1 3 false zeroKernel zeroKernel oneByOne 0 0
    (.ok none)).isOk = true
  rw [transform, resizeStage, halveLoop]
  norm_num [oneByOne, scaledDims, pilResize, toArr, toChannels, checkShape,
    ok_bind, error_bind]
  rfl

/-- C6, amended: for a dataset of length n (with any class-label list of
matching length), indexed access fails with `IndexError` iff the index is
outside `[-n, n)`: indices in `[-n, -1]` wrap around Python-style and are
served (subject only to the transform's own `ValueError` conditions), and
indices in `[0, n)` never raise `IndexError`. -/
theorem getitem_indexError_iff (ds : ImageDatasetSuperres) (bk bik : Kernel)
    (idx : ℤ) (r1 r2 : ℕ)
    (hcls : ∀ cs, ds.local_classes = some cs →
      cs.length = ds.local_images.length) :
    errOf (getitem ds bk bik idx r1 r2) = some .indexError ↔
      (idx < -(ds.local_images.length : ℤ) ∨
        (ds.local_images.length : ℤ) ≤ idx) := by
  rw [errOf_eq_some]
  unfold getitem
  constructor
  · intro h
    by_contra hrange
    rcases pyIndex_ok_or_indexError ds.local_images idx with ⟨img, himg⟩ | herr
    · rw [himg, ok_bind] at h
      have hlab := transform_indexError_from_label _ _ _ _ _ _ _ _ _ _ h
      cases hcl : ds.local_classes with
      | none => simp only [hcl] at hlab; exact Except.noConfusion hlab
      | some cs =>
        simp only [hcl] at hlab
        rcases pyIndex_ok_or_indexError cs idx with ⟨v, hv⟩ | herr2
        · rw [hv, ok_bind] at hlab; exact Except.noConfusion hlab
        · rw [pyIndex_error_iff, hcls cs hcl] at herr2
          exact hrange herr2
    · rw [pyIndex_error_iff] at herr
      exact hrange herr
  · intro h
    have herr : pyIndex ds.local_images idx = .error .indexError :=
      (pyIndex_error_iff ds.local_images idx).mpr h
    rw [herr, error_bind]

/-- C6, witness: on the labelled length-1 dataset, access at index 5 raises
`IndexError`. -/
theorem getitem_indexError_iff_witness :
    errOf (getitem dsY zeroKernel zeroKernel 5 0 0) = some .indexError :=
  (getitem_indexError_iff dsY zeroKernel zeroKernel 5 0 0
    (by
      intro cs hcs
      injection hcs with h
      rw [← h]
      rfl)).mpr (by norm_num [dsY])

/-! ### C7: exactness of the uniform scale step -/

/-- C7: for every image with positive dimensions, the resize path's final
dimensions — obtained by applying the single uniform scale factor
`resolution / min(width, height)` to both sides of the halving-loop output
and rounding each to the nearest integer — have their smaller side exactly
equal to `resolution` (the larger side may exceed it); in exact arithmetic
the scale step cannot miss by rounding. -/
theorem resize_min_side_exact (res : ℕ) (bk bik : Kernel) (img : PILImage)
    (hw : 0 < img.width) (hh : 0 < img.height) :
    min (resizeStage res bk bik img).width (resizeStage res bk bik img).height
      = res := by
  obtain ⟨h1, h2⟩ := halveLoop_pos res bk img hw hh
  unfold resizeStage
  dsimp only [pilResize]
  exact scaled_min_side res _ _ h1 h2

/-- C7, witness: a 3-wide, 5-high image at resolution 2 resizes to
dimensions whose smaller side is exactly 2. -/
theorem resize_min_side_exact_witness :
    0 < (3 : ℕ) ∧ 0 < (5 : ℕ) ∧
      min (resizeStage 2 zeroKernel zeroKernel ⟨3, 5, fun _ _ => 0⟩).width
        (resizeStage 2 zeroKernel zeroKernel ⟨3, 5, fun _ _ => 0⟩).height = 2 :=
  ⟨by norm_num, by norm_num,
   resize_min_side_exact 2 zeroKernel zeroKernel ⟨3, 5, fun _ _ => 0⟩
     (by norm_num) (by norm_num)⟩

/-! ### C8: side-dictionary contents -/

/-- C8: every successful per-index access returns a side-dict whose `"y"`
key is present iff class labels were supplied at dataset construction, and
whose `"low_res"` value has shape exactly
`(channels, low_resolution, low_resolution)`, whatever `resolution` is. -/
theorem getitem_side_dict (ds : ImageDatasetSuperres) (bk bik : Kernel)
    (idx : ℤ) (r1 r2 : ℕ)
    (hok : (getitem ds bk bik idx r1 r2).isOk = true) :
    hasYKey (getitem ds bk bik idx r1 r2) = some ds.local_classes.isSome ∧
      dimsOfLowRes (getitem ds bk bik idx r1 r2) =
        some (ds.num_channels, ds.low_resolution, ds.low_resolution) := by
  unfold getitem at hok ⊢
  obtain ⟨img, himg, h2⟩ := isOk_bind _ _ hok
  rw [himg, ok_bind]
  unfold transform at h2 ⊢
  obtain ⟨img2, himg2, h3⟩ := isOk_bind _ _ h2
  rw [himg2, ok_bind]
  obtain ⟨arr, harr, h4⟩ := isOk_bind _ _ h3
  rw [harr, ok_bind]
  obtain ⟨u, hu, h5⟩ := isOk_bind _ _ h4
  have hshape : arr.d0 = ds.resolution ∧ arr.d1 = ds.resolution ∧
      arr.d2 = ds.num_channels := by
    by_contra hc
    rw [checkShape, if_pos hc] at hu
    exact Except.noConfusion hu
  rw [hu, ok_bind]
  obtain ⟨label, hlab, h6⟩ := isOk_bind _ _ h5
  rw [hlab, ok_bind]
  constructor
  · cases hcl : ds.local_classes with
    | none =>
      simp only [hcl] at hlab
      injection hlab with h
      subst h
      simp [hasYKey, hcl]
    | some cs =>
      simp only [hcl] at hlab
      cases hpc : pyIndex cs idx with
      | error e => simp only [hpc] at hlab; exact Except.noConfusion hlab
      | ok v =>
        simp only [hpc, ok_bind] at hlab
        injection hlab with h
        subst h
        simp [hasYKey, hcl]
  · simp [dimsOfLowRes, areaPool, transposeCHW, normalizeArr, centerSlice,
      hshape.2.2]

/-- C8, witness: on the labelled length-1 dataset, index 0 succeeds, the
`"y"` key is present, and the low-resolution companion has shape
`(3, 1, 1)`. -/
theorem getitem_side_dict_witness :
    hasYKey (getitem dsY zeroKernel zeroKernel 0 0 0) =
        some dsY.local_classes.isSome ∧
      dimsOfLowRes (getitem dsY zeroKernel zeroKernel 0 0 0) =
        some (dsY.num_channels, dsY.low_resolution, dsY.low_resolution) :=
  getitem_side_dict dsY zeroKernel zeroKernel 0 0 0 (by
    rw [getitem]
    rw [show pyIndex dsY.local_images 0 = .ok oneByOne by
      rw [pyIndex]
      norm_num [dsY]]
    rw [ok_bind]
    rw [transform, resizeStage, halveLoop]
    norm_num [dsY, oneByOne, scaledDims, pilResize, toArr, toChannels,
      checkShape, ok_bind, error_bind, pyIndex]
    rfl)

/-! ### C9: value normalization -/

/-- C9: the normalization `v / 127.5 - 1` maps every integer pixel value
`v` in `[0, 255]` into `[-1, 1]`, and the inverse map
`(x + 1) * 127.5` followed by rounding to the nearest integer recovers
`v` exactly. -/
theorem normalize_range_roundtrip (v : ℕ) (h : v ≤ 255) :
    -1 ≤ normalizeVal (v : ℚ) ∧ normalizeVal (v : ℚ) ≤ 1 ∧
      round ((normalizeVal (v : ℚ) + 1) * 127.5) = (v : ℤ) := by
  refine ⟨?_, ?_, ?_⟩
  · unfold normalizeVal
    have h0 : (0 : ℚ) ≤ (v : ℚ) / 127.5 := by positivity
    linarith
  · unfold normalizeVal
    have hv : (v : ℚ) ≤ 255 := by exact_mod_cast h
    have h2 : (v : ℚ) / 127.5 ≤ 2 := by
      rw [div_le_iff₀ (by norm_num : (0 : ℚ) < 127.5)]
      linarith
    linarith
  · unfold normalizeVal
    have hmul : ((v : ℚ) / 127.5 - 1 + 1) * 127.5 = (v : ℚ) := by
      field_simp
    rw [hmul, round_natCast]

/-- C9, witness: pixel value 200 normalizes into `[-1, 1]` and
round-trips. -/
theorem normalize_range_roundtrip_witness :
    (200 : ℕ) ≤ 255 ∧
      (-1 ≤ normalizeVal ((200 : ℕ) : ℚ) ∧ normalizeVal ((200 : ℕ) : ℚ) ≤ 1 ∧
        round ((normalizeVal ((200 : ℕ) : ℚ) + 1) * 127.5) = ((200 : ℕ) : ℤ)) :=
  ⟨by norm_num, normalize_range_roundtrip 200 (by norm_num)⟩

/-! ### C10: unset class count -/

/-- C10: with class-conditioning enabled and `num_class` left unset
(`None`), dataset construction always fails with the class-count-mismatch
`ValueError` for every non-empty list of discovered paths, because `None`
never equals the integer count of distinct class names. -/
theorem unset_class_count_always_fails (paths : List String)
    (_h : paths ≠ []) :
    errOf (load_data_classes paths true none) =
      some (.valueError "Difference between the number of classes when reading the data and the input number of classes.") := by
  unfold load_data_classes
  rw [if_pos rfl, if_neg (by simp)]
  rfl

/-- C10, witness: a single discovered path with an unset class count fails
with the class-count `ValueError`. -/
theorem unset_class_count_always_fails_witness :
    ["root/cat_1.png"] ≠ ([] : List String) ∧
      errOf (load_data_classes ["root/cat_1.png"] true none) =
        some (.valueError "Difference between the number of classes when reading the data and the input number of classes.") :=
  ⟨by decide, unset_class_count_always_fails ["root/cat_1.png"] (by decide)⟩
